import Mathlib

/-!
Verification of the MCP transport/session layer of the `mcp-services`
repository: a shallow embedding of `src/examples/mcp_client.py`
(MCPClient / MCPManager), `src/examples/chatbot.py` (agent loop) and
`src/mcp_servers/code_repos/server.py` (server-side tool dispatch),
together with theorems settling the specification's claims about them.

Strings are modelled as `List Char` (`Str`); Python string literals enter
through `strL`.  JSON argument objects are opaque (a type parameter `J`):
the code under scrutiny never inspects them, it only passes them through.
Exceptions are modelled with `Except Str` carrying the exception message.
Where a loop's externally visible effects matter (which sessions had
`start`/`stop` invoked on them), the embedding returns an explicit log of
those invocations alongside the final state.
-/

namespace MCP

/-- Python strings, modelled as lists of characters. -/
abbrev Str := List Char

/-- Embed a Lean string literal as a `Str`. -/
def strL (s : String) : Str := s.data

/-- The namespace separator `"__"` used in full tool names. -/
def sep : Str := strL "__"

/-- Embedding of Python `"__" in s`: does `s` contain the substring `"__"`?
Scans adjacent character pairs. -/
def hasSep : Str → Bool
  | [] => false
  | [_] => false
  | c :: d :: rest => if c = '_' ∧ d = '_' then true else hasSep (d :: rest)

/-- Embedding of Python `s.split("__", 1)`: split at the leftmost occurrence
of `"__"`, returning the parts before and after it; `none` when the
separator does not occur (Python's split would return a one-element list). -/
def splitFirst : Str → Option (Str × Str)
  | [] => none
  | [_] => none
  | c :: d :: rest =>
    if c = '_' ∧ d = '_' then some ([], rest)
    else (splitFirst (d :: rest)).map (fun p => (c :: p.1, p.2))

/-- Embedding of Python `s.endswith("_")`. -/
def endsU : Str → Bool
  | [] => false
  | [c] => c = '_'
  | _ :: d :: rest => endsU (d :: rest)

/-- A server name is well formed for the `"__"` naming scheme when it neither
contains the separator nor ends with an underscore. -/
def wellNamed (s : Str) : Prop := hasSep s = false ∧ endsU s = false

instance wellNamedDec (s : Str) : Decidable (wellNamed s) :=
  inferInstanceAs (Decidable (hasSep s = false ∧ endsU s = false))

/-- Python `"\n".join(l)`. -/
def joinNL : List Str → Str
  | [] => []
  | [s] => s
  | s :: t :: rest => s ++ strL "\n" ++ joinNL (t :: rest)

/-- Python `", ".join(l)`. -/
def joinComma : List Str → Str
  | [] => []
  | [s] => s
  | s :: t :: rest => s ++ strL ", " ++ joinComma (t :: rest)

/-! ## Data model: tools, clients, manager (`src/examples/mcp_client.py`) -/

/-- `MCPTool` dataclass (`mcp_client.py` lines 19-33): a tool descriptor.
`to_claude_format` returns a dict with exactly these three fields, so the
Claude-format dict is represented by the structure itself; the `name` field
is what `get_all_tools` rewrites.  The input schema is an opaque JSON value
of type `J`. -/
structure MCPTool (J : Type) where
  name : Str
  description : Str
  input_schema : J
  deriving DecidableEq

/-- The observable behaviour of one started `MCPClient` (`mcp_client.py`
lines 45-265), as the manager uses it: its cached `_tools` list (filled by
`list_tools` during `start_all`), the result of `call_tool name args`
(`Except` models a raised `RuntimeError`), and the result of `stop`
(`.ok` when `stop` returns, `.error` carrying the message when it raises). -/
structure ClientM (J : Type) where
  tools : List (MCPTool J)
  call_tool : Str → J → Except Str Str
  stop : Except Str Unit

/-- `MCPServerConfig` together with the outcome of `MCPClient(config).start()`
followed by `client.list_tools()` during `start_all` (`mcp_client.py` lines
302-309): `.ok` yields the started client, `.error` the message raised by
either step. -/
structure ConfigM (J : Type) where
  name : Str
  start : Except Str (ClientM J)

/-- Error message of `MCPManager.get_client` (`mcp_client.py` line 320):
`ValueError(f"Unknown MCP server: {name}")`. -/
def unknownServerMsg (name : Str) : Str := strL "Unknown MCP server: " ++ name

/-- Error message of `MCPManager.call_tool_by_full_name` (`mcp_client.py`
line 365): `ValueError(f"Invalid tool name format: {full_name}")`. -/
def invalidNameMsg (full : Str) : Str := strL "Invalid tool name format: " ++ full

/-- `MCPManager.get_client` (`mcp_client.py` lines 317-321).  The manager's
`self.clients` dict is an association list in insertion order (Python dict
keys are unique, so first-match lookup agrees with dict lookup). -/
def get_client {J : Type} : List (Str × ClientM J) → Str → Except Str (ClientM J)
  | [], name => .error (unknownServerMsg name)
  | (n, c) :: rest, name => if n = name then .ok c else get_client rest name

/-- `MCPManager.call_tool` (`mcp_client.py` lines 334-349): look the session
up by server name and delegate to the client. -/
def manager_call_tool {J : Type} (clients : List (Str × ClientM J))
    (server_name tool_name : Str) (arguments : J) : Except Str Str := do
  let client ← get_client clients server_name
  client.call_tool tool_name arguments

/-- `MCPManager.call_tool_by_full_name` (`mcp_client.py` lines 351-368):
reject a name without `"__"` with `ValueError`; otherwise split at the first
`"__"` and delegate.  `splitFirst full = none` exactly when `"__" not in
full` (`splitFirst_eq_none_iff`), so the two-step Python code (membership
test, then `split("__", 1)`) is this single match. -/
def call_tool_by_full_name {J : Type} (clients : List (Str × ClientM J))
    (full_name : Str) (arguments : J) : Except Str Str :=
  match splitFirst full_name with
  | none => .error (invalidNameMsg full_name)
  | some (server_name, tool_name) =>
    manager_call_tool clients server_name tool_name arguments

/-- `MCPManager.get_all_tools` (`mcp_client.py` lines 323-332): every cached
tool of every client, with the name rewritten to `f"{name}__{tool.name}"`,
in nested iteration order. -/
def get_all_tools {J : Type} (clients : List (Str × ClientM J)) : List (MCPTool J) :=
  clients.flatMap fun p =>
    p.2.tools.map fun tool => { tool with name := p.1 ++ sep ++ tool.name }

/-! ## Manager lifecycle (`start_all`, `stop_all`, scoped use) -/

/-- The loop body of `MCPManager.stop_all` (`mcp_client.py` lines 311-315):
`for name, client in self.clients.items(): await client.stop()`.  Returns
the names whose `stop` was invoked, and the error of the first failing
`stop` (which aborts the loop), if any. -/
def stop_all_go {J : Type} : List (Str × ClientM J) → List Str → List Str × Option Str
  | [], log => (log, none)
  | (n, c) :: rest, log =>
    match c.stop with
    | .ok _ => stop_all_go rest (log ++ [n])
    | .error e => (log ++ [n], some e)

/-- `MCPManager.stop_all` (`mcp_client.py` lines 311-315): stop each client
in order, then `self.clients.clear()`.  Result: (names on which `stop` was
invoked, the `self.clients` dict afterwards, the propagated error if a
`stop` raised).  When a `stop` raises, the exception propagates out of the
loop and `clear()` is never reached, so the dict is unchanged. -/
def stop_all {J : Type} (clients : List (Str × ClientM J)) :
    List Str × List (Str × ClientM J) × Option Str :=
  match stop_all_go clients [] with
  | (log, none) => (log, [], none)
  | (log, some e) => (log, clients, some e)

/-- The loop of `MCPManager.start_all` (`mcp_client.py` lines 302-309):
for each config, start a client, cache its tools, and insert it into
`self.clients`.  Returns (names of configs whose start was attempted, the
`self.clients` dict, the propagated error if a start raised).  A raised
start aborts the loop, leaving the dict with the entries added so far. -/
def start_all_go {J : Type} :
    List (ConfigM J) → List (Str × ClientM J) → List Str →
    List Str × List (Str × ClientM J) × Option Str
  | [], acc, log => (log, acc, none)
  | cfg :: rest, acc, log =>
    match cfg.start with
    | .ok c => start_all_go rest (acc ++ [(cfg.name, c)]) (log ++ [cfg.name])
    | .error e => (log ++ [cfg.name], acc, some e)

/-- `MCPManager.start_all` (`mcp_client.py` lines 302-309), starting from an
empty `self.clients`. -/
def start_all {J : Type} (configs : List (ConfigM J)) :
    List Str × List (Str × ClientM J) × Option Str :=
  start_all_go configs [] []

/-- The clients a fully successful prefix of configs contributes to
`self.clients`. -/
def started_clients {J : Type} (configs : List (ConfigM J)) : List (Str × ClientM J) :=
  configs.filterMap fun cfg =>
    match cfg.start with
    | .ok c => some (cfg.name, c)
    | .error _ => none

/-- `async with MCPManager(configs) as manager: ...` as used in `chatbot.py`
`main` (lines 294-299): `__aenter__` runs `start_all`; Python invokes
`__aexit__` (hence `stop_all`) only when `__aenter__` returned normally.
Result: (names whose start was attempted, names whose stop was invoked, the
propagated error, if any). -/
def manager_scope {J : Type} (configs : List (ConfigM J)) :
    List Str × List Str × Option Str :=
  match start_all configs with
  | (alog, _, some e) => (alog, [], some e)
  | (alog, clients, none) =>
    match stop_all clients with
    | (slog, _, serr) => (alog, slog, serr)

/-! ## Client-side `tools/call` result extraction (`MCPClient.call_tool`) -/

/-- One entry of a `tools/call` result's `content` array, as inspected by
`MCPClient.call_tool` (`mcp_client.py` line 253): `c.get("type")` and
`c.get("text", "")` are the only fields read, `none` modelling an absent
key. -/
structure Block where
  type : Option Str
  text : Option Str
  deriving DecidableEq

/-- The `content` field of a `tools/call` result as `MCPClient.call_tool`
sees it: `result.get("content", [])` (absent key defaults to `[]`) followed
by `isinstance(content, list)`. -/
inductive ContentField
  | absent
  | nonList
  | ofList (blocks : List Block)
  deriving DecidableEq

/-- A `tools/call` result object: the `content` field together with
`str(result)`, the Python stringification of the whole result dict, carried
as data since only its identity matters here. -/
structure CallResult where
  content : ContentField
  raw : Str
  deriving DecidableEq

/-- The list comprehension of `MCPClient.call_tool` (line 253):
`[c.get("text", "") for c in content if c.get("type") == "text"]`. -/
def text_items (blocks : List Block) : List Str :=
  (blocks.filter fun c => c.type = some (strL "text")).map fun c => c.text.getD []

/-- The result-to-string extraction of `MCPClient.call_tool` (`mcp_client.py`
lines 250-256): when `content` is a (truthy, i.e. non-empty) list, join the
texts of its `"text"`-typed entries with newlines; otherwise `str(result)`. -/
def extract_text (r : CallResult) : Str :=
  match r.content with
  | .ofList blocks =>
    if blocks.isEmpty then r.raw else joinNL (text_items blocks)
  | _ => r.raw

/-! ## Request-ID allocation (`MCPClient._next_id`) -/

/-- `MCPClient._next_id` (`mcp_client.py` lines 131-134): increment
`self._request_id` and return it.  State is the `_request_id` counter,
initialised to `0` in `__init__`. -/
def next_id (request_id : Nat) : Nat × Nat := (request_id + 1, request_id + 1)

/-- The request IDs allocated by `n` successive `_send_request` calls
(`mcp_client.py` line 157 allocates one ID per request) starting from
counter state `s`. -/
def ids_from (s : Nat) : Nat → List Nat
  | 0 => []
  | n + 1 => (next_id s).2 :: ids_from (next_id s).1 n

/-! ## Server-side dispatch (`src/mcp_servers/code_repos/server.py`) -/

/-- `mcp.types.TextContent` as constructed by the server's `call_tool`:
always `TextContent(type="text", text=...)`. -/
structure TextContent where
  type : Str
  text : Str
  deriving DecidableEq

/-- Python `dict.get` on a name-keyed table (insertion order, unique keys). -/
def dict_get {α : Type} : List (Str × α) → Str → Option α
  | [], _ => none
  | (n, v) :: rest, name => if n = name then some v else dict_get rest name

/-- Python `str(...)` of a list of strings, as interpolated into the
unknown-tool message: `['a', 'b']` with single quotes. -/
def pyStrListRepr (names : List Str) : Str :=
  strL "[" ++ joinComma (names.map fun n =>
    [Char.ofNat 39] ++ n ++ [Char.ofNat 39]) ++ strL "]"

/-- The `tool_handlers` dict of `call_tool` (`code_repos/server.py` lines
130-136); the five handler bodies are opaque functions from the argument
object to a result string, `Except` modelling a raised exception with its
`str(e)`. -/
def tool_handlers {J : Type} (h₁ h₂ h₃ h₄ h₅ : J → Except Str Str) :
    List (Str × (J → Except Str Str)) :=
  [(strL "list_repos", h₁), (strL "get_repo_info", h₂), (strL "search_repos", h₃),
   (strL "get_repo_structure", h₄), (strL "reload_config", h₅)]

/-- The unknown-tool message (`code_repos/server.py` line 141):
`f"Unknown tool: {name}. Available tools: {list(tool_handlers.keys())}"`. -/
def unknownToolMsg (name : Str) (available : List Str) : Str :=
  strL "Unknown tool: " ++ name ++ strL ". Available tools: " ++ pyStrListRepr available

/-- The handler-failure message (`code_repos/server.py` line 150):
`f"Error executing tool {name}: {str(e)}"`. -/
def errorExecutingMsg (name : Str) (e : Str) : Str :=
  strL "Error executing tool " ++ name ++ strL ": " ++ e

/-- The server's `call_tool` (`code_repos/server.py` lines 125-152): look the
handler up; absent handlers and raising handlers both produce a normally
returned single text block (the function's return type records that no
exception escapes — the `mcp` framework turns a returned block list into a
successful RPC result). -/
def server_call_tool {J : Type} (h₁ h₂ h₃ h₄ h₅ : J → Except Str Str)
    (name : Str) (arguments : J) : List TextContent :=
  let handlers := tool_handlers h₁ h₂ h₃ h₄ h₅
  match dict_get handlers name with
  | none => [⟨strL "text", unknownToolMsg name (handlers.map (·.1))⟩]
  | some handler =>
    match handler arguments with
    | .ok result => [⟨strL "text", result⟩]
    | .error e => [⟨strL "text", errorExecutingMsg name e⟩]

/-! ## Agent loop (`src/examples/chatbot.py`) -/

/-- A content block of a Claude API response, as inspected by
`process_tool_calls`: `block.get("type")` is matched against `"tool_use"`
and `"text"`; tool-use blocks are read at keys `"id"`, `"name"`, `"input"`.
`other` stands for a block of any other type. -/
inductive CBlock (J : Type)
  | text (t : Str)
  | toolUse (id name : Str) (input : J)
  | other
  deriving DecidableEq

/-- A `tool_result` entry appended by `process_tool_calls` (`chatbot.py`
lines 154-158). -/
structure ToolResult where
  tool_use_id : Str
  content : Str
  deriving DecidableEq

/-- The content of a conversation message: a plain string (user input and
final assistant answers), a response's content blocks (the assistant
tool-use message), or a batch of tool results. -/
inductive MsgContent (J : Type)
  | text (s : Str)
  | blocks (bs : List (CBlock J))
  | toolResults (rs : List ToolResult)
  deriving DecidableEq

/-- One entry of the `messages` history list of `chat_loop`. -/
structure Message (J : Type) where
  role : Str
  content : MsgContent J
  deriving DecidableEq

/-- A Claude API response as `process_tool_calls` reads it:
`response.get("stop_reason")` and `response.get("content", [])`. -/
structure Response (J : Type) where
  stop_reason : Option Str
  content : List (CBlock J)
  deriving DecidableEq

/-- The tool-use blocks of a response's content, in order (`chatbot.py`
lines 126-129), as (id, name, input) triples. -/
def tool_uses_of {J : Type} (content : List (CBlock J)) : List (Str × Str × J) :=
  content.filterMap fun b =>
    match b with
    | .toolUse id name input => some (id, name, input)
    | _ => none

/-- The texts of a response's `"text"`-typed blocks, in order (`chatbot.py`
lines 167-171). -/
def text_blocks_text {J : Type} (content : List (CBlock J)) : List Str :=
  content.filterMap fun b =>
    match b with
    | .text t => some t
    | _ => none

/-- One tool invocation in `process_tool_calls` (`chatbot.py` lines
147-152): call through the manager, substituting `f"Error: {e}"` for a
raised exception.  `callT` abstracts `manager.call_tool_by_full_name`. -/
def run_tool {J : Type} (callT : Str → J → Except Str Str)
    (name : Str) (input : J) : Str :=
  match callT name input with
  | .ok r => r
  | .error e => strL "Error: " ++ e

/-- `process_tool_calls` (`chatbot.py` lines 104-173).  `callT` abstracts
the manager; `script` lists the responses the Claude API will return to the
successive `call_claude` calls inside the loop, the empty script modelling
a `call_claude` that raises.  Returns the `messages` list as mutated so far
(mutations survive a raised exception) and `some finalText` on normal
return, `none` when `call_claude` raised. -/
def process_tool_calls {J : Type} (callT : Str → J → Except Str Str) :
    List (Response J) → Response J → List (Message J) →
    List (Message J) × Option Str
  | script, response, messages =>
    if response.stop_reason = some (strL "tool_use") then
      match tool_uses_of response.content with
      | [] => (messages, some (joinNL (text_blocks_text response.content)))
      | tu :: tus =>
        let withAssistant := messages ++ [⟨strL "assistant", .blocks response.content⟩]
        let results := (tu :: tus).map fun b =>
          ToolResult.mk b.1 (run_tool callT b.2.1 b.2.2)
        let withResults := withAssistant ++ [⟨strL "user", .toolResults results⟩]
        match script with
        | [] => (withResults, none)
        | r :: rest => process_tool_calls callT rest r withResults
    else (messages, some (joinNL (text_blocks_text response.content)))

/-- The rollback in `chat_loop`'s exception handler (`chatbot.py` lines
243-247): pop the last message if there is one and its role is `"user"`. -/
def rollback {J : Type} (messages : List (Message J)) : List (Message J) :=
  match messages.getLast? with
  | some m => if m.role = strL "user" then messages.dropLast else messages
  | none => messages

/-- One user turn of `chat_loop` (`chatbot.py` lines 222-247): append the
user message, call Claude (the first script entry; an empty script models a
raised `call_claude`), run `process_tool_calls`, and on success append the
final assistant text; on a raised exception run the rollback.  Returns the
history after the turn and `some answer` on success, `none` on failure. -/
def chat_turn {J : Type} (callT : Str → J → Except Str Str)
    (script : List (Response J)) (messages : List (Message J))
    (user_input : Str) : List (Message J) × Option Str :=
  let withUser := messages ++ [⟨strL "user", .text user_input⟩]
  match script with
  | [] => (rollback withUser, none)
  | r :: rest =>
    match process_tool_calls callT rest r withUser with
    | (m, some answer) => (m ++ [⟨strL "assistant", .text answer⟩], some answer)
    | (m, none) => (rollback m, none)

/-! ## Concrete fixtures used by witnesses and counterexamples -/

/-- A client exposing one tool `echo`; its `call_tool` always returns `"hi"`. -/
def clientEcho : ClientM Unit :=
  ⟨[⟨strL "echo", strL "", ()⟩], fun _ _ => .ok (strL "hi"), .ok ()⟩

/-- A manager with the single well-named server `demo`. -/
def clientsDemo : List (Str × ClientM Unit) := [(strL "demo", clientEcho)]

/-- A client exposing one tool `t`; its `call_tool` always returns `"ok"`. -/
def clientOdd : ClientM Unit :=
  ⟨[⟨strL "t", strL "", ()⟩], fun _ _ => .ok (strL "ok"), .ok ()⟩

/-- A manager whose single server is named `a__b` — a name containing the
separator. -/
def clientsOdd : List (Str × ClientM Unit) := [(strL "a__b", clientOdd)]

/-- A client exposing one tool `x`. -/
def clientX : ClientM Unit :=
  ⟨[⟨strL "x", strL "", ()⟩], fun _ _ => .ok (strL "x"), .ok ()⟩

/-- Two distinct well-named servers declaring the same bare tool name `x`. -/
def clientsTwo : List (Str × ClientM Unit) :=
  [(strL "s1", clientX), (strL "s2", clientX)]

/-- A client exposing one tool `b__c`. -/
def clientBC : ClientM Unit :=
  ⟨[⟨strL "b__c", strL "", ()⟩], fun _ _ => .ok (strL "r"), .ok ()⟩

/-- A client exposing one tool `c`. -/
def clientC : ClientM Unit :=
  ⟨[⟨strL "c", strL "", ()⟩], fun _ _ => .ok (strL "r"), .ok ()⟩

/-- Two servers with distinct names `a` and `a__b` whose full tool names
collide: both produce `a__b__c`. -/
def clientsCollide : List (Str × ClientM Unit) :=
  [(strL "a", clientBC), (strL "a__b", clientC)]

/-- A `tools/call` result whose content is a non-empty list with no
`"text"`-typed block. -/
def resultNoText : CallResult := ⟨.ofList [⟨some (strL "image"), none⟩], strL "rawresult"⟩

/-- A `tools/call` result with one text block and one non-text block. -/
def resultWithText : CallResult :=
  ⟨.ofList [⟨some (strL "text"), some (strL "hi")⟩, ⟨some (strL "image"), none⟩], strL "raw2"⟩

/-- A `tools/call` result without a `content` key. -/
def resultAbsent : CallResult := ⟨.absent, strL "raw3"⟩

/-- A client (no tools) whose `stop` returns normally. -/
def clientStopOk : ClientM Unit := ⟨[], fun _ _ => .ok [], .ok ()⟩

/-- A client (no tools) whose `stop` raises `"stuck"`. -/
def clientStopBoom : ClientM Unit := ⟨[], fun _ _ => .ok [], .error (strL "stuck")⟩

/-- A manager whose first session's `stop` raises and whose second is fine. -/
def clientsStop : List (Str × ClientM Unit) :=
  [(strL "a", clientStopBoom), (strL "b", clientStopOk)]

/-- Three configs: `a` starts fine, `b` fails to start, `c` would start fine. -/
def configsFail : List (ConfigM Unit) :=
  [⟨strL "a", .ok clientStopOk⟩, ⟨strL "b", .error (strL "spawnfail")⟩,
   ⟨strL "c", .ok clientStopOk⟩]

/-- A manager call that always succeeds with `"result"`. -/
def callTok : Str → Unit → Except Str Str := fun _ _ => .ok (strL "result")

/-- A tool handler that returns normally. -/
def handlerOk : Unit → Except Str Str := fun _ => .ok (strL "handled")

/-- A tool handler that raises `"boom"`. -/
def handlerBoom : Unit → Except Str Str := fun _ => .error (strL "boom")

/-- A response requesting one tool use. -/
def respToolUse : Response Unit :=
  ⟨some (strL "tool_use"), [.toolUse (strL "id1") (strL "demo__echo") ()]⟩

/-- A response whose stop reason is `tool_use` but whose content has no
tool-use block. -/
def respEmptyToolUse : Response Unit := ⟨some (strL "tool_use"), []⟩

/-! ## Lemmas about the `"__"` splitting -/

lemma splitFirst_eq_none_iff : ∀ s : Str, splitFirst s = none ↔ hasSep s = false
  | [] => by simp [splitFirst, hasSep]
  | [c] => by simp [splitFirst, hasSep]
  | c :: d :: rest => by
    have ih := splitFirst_eq_none_iff (d :: rest)
    by_cases h : c = '_' ∧ d = '_'
    · simp [splitFirst, hasSep, h]
    · simpa [splitFirst, hasSep, h] using ih

/-- Splitting `s ++ "__" ++ t` recovers `(s, t)` when `s` contains no `"__"`
and does not end in `"_"`. -/
lemma splitFirst_append : ∀ s : Str, ∀ t : Str,
    hasSep s = false → endsU s = false →
    splitFirst (s ++ sep ++ t) = some (s, t)
  | [], t, _, _ => by simp [splitFirst, sep, strL]
  | [c], t, _, he => by
    have hc : ¬ c = '_' := by simpa [endsU] using he
    simp [splitFirst, sep, strL, hc]
  | c :: d :: rest, t, hs, he => by
    have hnot : ¬ (c = '_' ∧ d = '_') := by
      intro hcd
      simp [hasSep, hcd] at hs
    have hs' : hasSep (d :: rest) = false := by
      simpa [hasSep, hnot] using hs
    have he' : endsU (d :: rest) = false := by simpa [endsU] using he
    have ih := splitFirst_append (d :: rest) t hs' he'
    have hd : ((d :: rest) ++ sep ++ t) = d :: (rest ++ sep ++ t) := by simp
    rw [hd] at ih
    have harr : (c :: d :: rest) ++ sep ++ t = c :: d :: (rest ++ sep ++ t) := by
      simp
    rw [harr]
    have ih' : splitFirst (d :: (rest ++ (sep ++ t))) = some (d :: rest, t) := by
      simpa [List.append_assoc] using ih
    simp [splitFirst, hnot, ih']

/-- The full-name encoding `s ++ "__" ++ t` is injective on well-named
server names. -/
lemma fullName_inj {s₁ s₂ t₁ t₂ : Str}
    (h₁ : wellNamed s₁) (h₂ : wellNamed s₂)
    (h : s₁ ++ sep ++ t₁ = s₂ ++ sep ++ t₂) : s₁ = s₂ ∧ t₁ = t₂ := by
  have e₁ := splitFirst_append s₁ t₁ h₁.1 h₁.2
  rw [h, splitFirst_append s₂ t₂ h₂.1 h₂.2] at e₁
  simp only [Option.some.injEq, Prod.mk.injEq] at e₁
  exact ⟨e₁.1.symm, e₁.2.symm⟩

/-! ## C8: a full name without `"__"` fails synchronously -/

/-- C8: for every full name not containing `"__"`, `call_tool_by_full_name`
raises `ValueError(f"Invalid tool name format: ...")`; the result is the
same for every manager state and every argument object, so no session
lookup, process interaction, or network call is involved. -/
theorem C8_no_sep_fails {J : Type} (clients clients' : List (Str × ClientM J))
    (full : Str) (args args' : J) (h : hasSep full = false) :
    call_tool_by_full_name clients full args = .error (invalidNameMsg full) ∧
    call_tool_by_full_name clients full args
      = call_tool_by_full_name clients' full args' := by
  have hs : splitFirst full = none := (splitFirst_eq_none_iff full).mpr h
  constructor <;> simp [call_tool_by_full_name, hs]

/-- Witness for C8 at the concrete name `"plainname"` and an empty manager. -/
theorem C8_witness :
    hasSep (strL "plainname") = false ∧
    call_tool_by_full_name ([] : List (Str × ClientM Unit)) (strL "plainname") ()
      = .error (invalidNameMsg (strL "plainname")) :=
  ⟨by decide, (C8_no_sep_fails [] [] (strL "plainname") () () (by decide)).1⟩

/-! ## C2: round trip of the full-name scheme -/

/-- C2 (amended): for a started session whose name contains no `"__"` and
does not end in `"_"`, and a tool it declares, calling through the full
name `serverName ++ "__" ++ toolName` is the same as calling
`call_tool(serverName, toolName, args)` directly. -/
theorem C2_roundtrip_wellNamed {J : Type} (clients : List (Str × ClientM J))
    (s t : Str) (args : J) (c : ClientM J)
    (hw : wellNamed s)
    (_hc : get_client clients s = .ok c)
    (_ht : t ∈ c.tools.map (·.name)) :
    call_tool_by_full_name clients (s ++ sep ++ t) args
      = manager_call_tool clients s t args := by
  unfold call_tool_by_full_name
  rw [splitFirst_append s t hw.1 hw.2]

/-- Witness for C2 on the started server `demo` and its declared tool
`echo`. -/
theorem C2_witness :
    call_tool_by_full_name clientsDemo (strL "demo" ++ sep ++ strL "echo") ()
      = manager_call_tool clientsDemo (strL "demo") (strL "echo") () :=
  C2_roundtrip_wellNamed clientsDemo (strL "demo") (strL "echo") () clientEcho
    ⟨by decide, by decide⟩ rfl (by decide)

/-- Counterexample to C2 as stated: the server name `a__b` contains the
separator, the session is started and declares the tool `t`, yet the
full-name call splits at the first `"__"`, looks up the non-existent server
`a`, and raises, while the direct call succeeds. -/
theorem C2_counterexample :
    (strL "t") ∈ clientOdd.tools.map (·.name) ∧
    get_client clientsOdd (strL "a__b") = .ok clientOdd ∧
    call_tool_by_full_name clientsOdd (strL "a__b" ++ sep ++ strL "t") ()
      = .error (unknownServerMsg (strL "a")) ∧
    manager_call_tool clientsOdd (strL "a__b") (strL "t") () = .ok (strL "ok") ∧
    (Except.error (unknownServerMsg (strL "a")) : Except Str Str) ≠ .ok (strL "ok") :=
  ⟨by decide, rfl, rfl, rfl, fun h => nomatch h⟩

/-! ## C3: namespace isolation of `get_all_tools` -/

lemma mem_get_all_tools_names {J : Type} {clients : List (Str × ClientM J)} {x : Str} :
    x ∈ (get_all_tools clients).map (·.name) ↔
    ∃ p ∈ clients, ∃ tool ∈ p.2.tools, x = p.1 ++ sep ++ tool.name := by
  simp only [get_all_tools, List.map_flatMap, List.mem_flatMap, List.map_map,
    List.mem_map, Function.comp]
  constructor
  · rintro ⟨p, hp, tool, htool, rfl⟩
    exact ⟨p, hp, tool, htool, rfl⟩
  · rintro ⟨p, hp, tool, htool, rfl⟩
    exact ⟨p, hp, tool, htool, rfl⟩

/-- C3 (amended): full tool names are pairwise distinct provided the server
names are pairwise distinct, every server name is well formed for the
`"__"` scheme (contains no `"__"`, does not end in `"_"`), and each
server's bare tool names are distinct; in particular two servers may share
a bare tool name. -/
theorem C3_get_all_tools_nodup {J : Type} (clients : List (Str × ClientM J))
    (hnames : (clients.map (·.1)).Nodup)
    (hwell : ∀ p ∈ clients, wellNamed p.1)
    (htools : ∀ p ∈ clients, (p.2.tools.map (·.name)).Nodup) :
    ((get_all_tools clients).map (·.name)).Nodup := by
  induction clients with
  | nil => simp [get_all_tools]
  | cons p rest ih =>
    have hnames' : (rest.map (·.1)).Nodup := (List.nodup_cons.mp hnames).2
    have hpnotin : p.1 ∉ rest.map (·.1) := (List.nodup_cons.mp hnames).1
    have hrest : ((get_all_tools rest).map (·.name)).Nodup :=
      ih hnames' (fun q hq => hwell q (List.mem_cons_of_mem p hq))
        (fun q hq => htools q (List.mem_cons_of_mem p hq))
    have hsplit : (get_all_tools (p :: rest)).map (·.name)
        = (p.2.tools.map fun tool => p.1 ++ sep ++ tool.name)
          ++ (get_all_tools rest).map (·.name) := by
      simp [get_all_tools, List.map_flatMap, List.map_map, Function.comp]
    rw [hsplit]
    refine List.Nodup.append ?_ hrest ?_
    · have hmm : (p.2.tools.map fun tool => p.1 ++ sep ++ tool.name)
          = (p.2.tools.map (·.name)).map fun t => p.1 ++ sep ++ t := by
        simp only [List.map_map]; rfl
      rw [hmm]
      refine List.Nodup.map ?_ (htools p (List.mem_cons_self p rest))
      intro a b hab
      exact List.append_cancel_left hab
    · intro x hx1 hx2
      obtain ⟨tool, _, rfl⟩ := List.mem_map.mp hx1
      obtain ⟨q, hq, tool₂, _, heq⟩ := mem_get_all_tools_names.mp hx2
      have hinj := fullName_inj (hwell p (List.mem_cons_self p rest))
        (hwell q (List.mem_cons_of_mem p hq)) heq
      exact hpnotin (hinj.1 ▸ List.mem_map.mpr ⟨q, hq, rfl⟩)

/-- Witness for C3 on two well-named servers `s1`, `s2` sharing the bare
tool name `x`. -/
theorem C3_witness : ((get_all_tools clientsTwo).map (·.name)).Nodup :=
  C3_get_all_tools_nodup clientsTwo (by decide) (by decide) (by decide)

/-- Counterexample to C3 as stated: servers named `a` (declaring tool
`b__c`) and `a__b` (declaring tool `c`) have pairwise-distinct names and
per-server distinct tool names, yet both full names are `a__b__c`. -/
theorem C3_counterexample :
    (clientsCollide.map (·.1)).Nodup ∧
    (∀ p ∈ clientsCollide, (p.2.tools.map (·.name)).Nodup) ∧
    ((get_all_tools clientsCollide).map (·.name))
      = [strL "a__b__c", strL "a__b__c"] ∧
    ¬ ((get_all_tools clientsCollide).map (·.name)).Nodup := by decide

/-! ## C4: client-side text extraction from a `tools/call` result -/

/-- C4 (amended): `MCPClient.call_tool` returns the newline-joined texts of
the `"text"`-typed blocks whenever the result's `content` field is a
non-empty list (the empty string when that list has no text-typed block),
and returns the raw stringified result exactly when `content` is absent,
not a list, or the empty list. -/
theorem C4_extract_text_spec (r : CallResult) :
    (∀ bs, r.content = .ofList bs → bs ≠ [] →
      extract_text r = joinNL (text_items bs)) ∧
    ((r.content = .absent ∨ r.content = .nonList ∨ r.content = .ofList []) →
      extract_text r = r.raw) := by
  constructor
  · rintro bs hbs hne
    obtain ⟨b, bs', rfl⟩ := List.exists_cons_of_ne_nil hne
    simp [extract_text, hbs]
  · rintro (h | h | h) <;> simp [extract_text, h]

/-- Witness for C4: a result with a text block joins the texts; a result
without a `content` key yields the raw stringified result. -/
theorem C4_witness :
    extract_text resultWithText
      = joinNL (text_items [⟨some (strL "text"), some (strL "hi")⟩,
          ⟨some (strL "image"), none⟩]) ∧
    extract_text resultAbsent = resultAbsent.raw :=
  ⟨(C4_extract_text_spec resultWithText).1
      [⟨some (strL "text"), some (strL "hi")⟩, ⟨some (strL "image"), none⟩]
      rfl (by decide),
   (C4_extract_text_spec resultAbsent).2 (Or.inl rfl)⟩

/-- Counterexample to C4 as stated: a result whose `content` is a non-empty
list containing no text-typed block yields the empty string, not the raw
stringified result. -/
theorem C4_counterexample :
    text_items [⟨some (strL "image"), none⟩] = [] ∧
    extract_text resultNoText = [] ∧
    resultNoText.raw = strL "rawresult" ∧
    extract_text resultNoText ≠ resultNoText.raw := by decide

/-! ## C1: server-side `tools/call` dispatch never fails at protocol level -/

/-- C1: the server's `call_tool` always returns (rather than raises) a
single `"text"`-typed content block — a protocol-level success; when the
name has no registered handler the block reads
`"Unknown tool: <name>. Available tools: <list>"`, and when the handler
raises it reads `"Error executing tool <name>: <message>"`. -/
theorem C1_server_dispatch {J : Type} (h₁ h₂ h₃ h₄ h₅ : J → Except Str Str)
    (name : Str) (args : J) :
    (∃ t, server_call_tool h₁ h₂ h₃ h₄ h₅ name args = [⟨strL "text", t⟩]) ∧
    (dict_get (tool_handlers h₁ h₂ h₃ h₄ h₅) name = none →
      server_call_tool h₁ h₂ h₃ h₄ h₅ name args
        = [⟨strL "text",
            unknownToolMsg name ((tool_handlers h₁ h₂ h₃ h₄ h₅).map (·.1))⟩]) ∧
    (∀ h e, dict_get (tool_handlers h₁ h₂ h₃ h₄ h₅) name = some h →
      h args = .error e →
      server_call_tool h₁ h₂ h₃ h₄ h₅ name args
        = [⟨strL "text", errorExecutingMsg name e⟩]) := by
  refine ⟨?_, ?_, ?_⟩
  · cases hd : dict_get (tool_handlers h₁ h₂ h₃ h₄ h₅) name with
    | none =>
      exact ⟨unknownToolMsg name ((tool_handlers h₁ h₂ h₃ h₄ h₅).map (·.1)),
        by simp [server_call_tool, hd]⟩
    | some h =>
      cases hr : h args with
      | ok r => exact ⟨r, by simp [server_call_tool, hd, hr]⟩
      | error e =>
        exact ⟨errorExecutingMsg name e, by simp [server_call_tool, hd, hr]⟩
  · intro hd
    simp [server_call_tool, hd]
  · intro h e hd hr
    simp [server_call_tool, hd, hr]

/-- Witness for C1: the unregistered name `nope` yields the unknown-tool
block; the registered handler for `list_repos` raising `"boom"` yields the
error block. -/
theorem C1_witness :
    server_call_tool handlerBoom handlerOk handlerOk handlerOk handlerOk
        (strL "nope") ()
      = [⟨strL "text", unknownToolMsg (strL "nope")
          ((tool_handlers handlerBoom handlerOk handlerOk handlerOk handlerOk).map
            (·.1))⟩] ∧
    server_call_tool handlerBoom handlerOk handlerOk handlerOk handlerOk
        (strL "list_repos") ()
      = [⟨strL "text", errorExecutingMsg (strL "list_repos") (strL "boom")⟩] :=
  ⟨(C1_server_dispatch handlerBoom handlerOk handlerOk handlerOk handlerOk
      (strL "nope") ()).2.1 rfl,
   (C1_server_dispatch handlerBoom handlerOk handlerOk handlerOk handlerOk
      (strL "list_repos") ()).2.2 handlerBoom (strL "boom") rfl rfl⟩

/-! ## C9: request IDs are distinct and strictly increasing -/

lemma ids_from_lt : ∀ n s, ∀ x ∈ ids_from s n, s < x
  | 0, s => by simp [ids_from]
  | n + 1, s => by
    intro x hx
    simp only [ids_from, next_id, List.mem_cons] at hx
    rcases hx with rfl | hx
    · omega
    · have := ids_from_lt n (s + 1) x hx
      omega

lemma ids_from_pairwise : ∀ n s, List.Pairwise (· < ·) (ids_from s n)
  | 0, s => by simp [ids_from]
  | n + 1, s => by
    simp only [ids_from, next_id]
    refine List.pairwise_cons.mpr ⟨?_, ids_from_pairwise n (s + 1)⟩
    intro x hx
    have := ids_from_lt n (s + 1) x hx
    omega

/-- C9: the IDs allocated by any number of successive requests of one
session (counter initialised to 0) are strictly increasing in issue order,
hence pairwise distinct. -/
theorem C9_request_ids (n : Nat) :
    List.Pairwise (· < ·) (ids_from 0 n) ∧ (ids_from 0 n).Nodup := by
  have hp := ids_from_pairwise n 0
  exact ⟨hp, hp.imp fun h => Nat.ne_of_lt h⟩

/-! ## C5: `stop_all` -/

lemma stop_all_go_ok {J : Type} :
    ∀ (clients : List (Str × ClientM J)) (log : List Str),
    (∀ p ∈ clients, p.2.stop = .ok ()) →
    stop_all_go clients log = (log ++ clients.map (·.1), none)
  | [], log, _ => by simp [stop_all_go]
  | (n, c) :: rest, log, h => by
    have hc : c.stop = .ok () := h (n, c) (List.mem_cons_self _ _)
    have ih := stop_all_go_ok rest (log ++ [n])
      (fun p hp => h p (List.mem_cons_of_mem _ hp))
    simp [stop_all_go, hc, ih]

lemma stop_all_go_err {J : Type} :
    ∀ (pre : List (Str × ClientM J)) (n : Str) (c : ClientM J)
      (post : List (Str × ClientM J)) (e : Str) (log : List Str),
    (∀ p ∈ pre, p.2.stop = .ok ()) → c.stop = .error e →
    stop_all_go (pre ++ (n, c) :: post) log
      = (log ++ pre.map (·.1) ++ [n], some e)
  | [], n, c, post, e, log, _, hc => by simp [stop_all_go, hc]
  | (m, d) :: pre, n, c, post, e, log, h, hc => by
    have hd : d.stop = .ok () := h (m, d) (List.mem_cons_self _ _)
    have ih := stop_all_go_err pre n c post e (log ++ [m])
      (fun p hp => h p (List.mem_cons_of_mem _ hp)) hc
    simp [stop_all_go, hd, ih]

/-- C5 (amended): `stop_all` stops the sessions in iteration order; when
every `stop` succeeds, all sessions are stopped and the collection is
cleared; but an error raised by one session's `stop` propagates, the
remaining sessions are not stopped, and the collection is left unchanged
(not emptied). -/
theorem C5_stop_all_spec {J : Type} (clients : List (Str × ClientM J)) :
    ((∀ p ∈ clients, p.2.stop = .ok ()) →
      stop_all clients = (clients.map (·.1), [], none)) ∧
    (∀ pre n c post e, clients = pre ++ (n, c) :: post →
      (∀ p ∈ pre, p.2.stop = .ok ()) → c.stop = .error e →
      stop_all clients = (pre.map (·.1) ++ [n], clients, some e)) := by
  constructor
  · intro h
    simp [stop_all, stop_all_go_ok clients [] h]
  · rintro pre n c post e rfl hpre hc
    simp [stop_all, stop_all_go_err pre n c post e [] hpre hc]

/-- Witness for C5: in a manager whose first session's `stop` raises
`"stuck"`, the loop aborts after the first session, and the collection is
left as it was. -/
theorem C5_witness :
    stop_all clientsStop = ([strL "a"], clientsStop, some (strL "stuck")) :=
  (C5_stop_all_spec clientsStop).2 [] (strL "a") clientStopBoom
    [(strL "b", clientStopOk)] (strL "stuck") rfl (by simp) rfl

/-- Counterexample to C5 as stated: with the first session's `stop`
raising, `stop` is invoked only on session `a` (session `b` is never
stopped) and the manager's collection still holds both sessions. -/
theorem C5_counterexample :
    (stop_all clientsStop).1 = [strL "a"] ∧
    (stop_all clientsStop).2.2 = some (strL "stuck") ∧
    (stop_all clientsStop).2.1.length = 2 :=
  ⟨rfl, rfl, rfl⟩

/-! ## C6: `start_all` under a failing start -/

lemma start_all_go_err {J : Type} :
    ∀ (pre : List (ConfigM J)) (cfg : ConfigM J) (post : List (ConfigM J))
      (e : Str) (acc : List (Str × ClientM J)) (log : List Str),
    (∀ p ∈ pre, ∃ c, p.start = .ok c) → cfg.start = .error e →
    start_all_go (pre ++ cfg :: post) acc log
      = (log ++ pre.map (·.name) ++ [cfg.name],
         acc ++ started_clients pre, some e)
  | [], cfg, post, e, acc, log, _, hc => by
    simp [start_all_go, hc, started_clients]
  | p :: pre, cfg, post, e, acc, log, h, hc => by
    obtain ⟨c, hp⟩ := h p (List.mem_cons_self _ _)
    have ih := start_all_go_err pre cfg post e (acc ++ [(p.name, c)])
      (log ++ [p.name]) (fun q hq => h q (List.mem_cons_of_mem _ hq)) hc
    simp [start_all_go, hp, ih, started_clients]

/-- C6 (amended): `start_all` starts sessions sequentially; a failure
starting one session aborts `start_all` immediately: the configs after the
failing one are not attempted, the already-started sessions stay in the
manager's collection, and — because the `async with` entry raised, so the
exit (and hence `stop_all`) never runs — no started session is stopped. -/
theorem C6_start_all_abort {J : Type} (pre : List (ConfigM J)) (cfg : ConfigM J)
    (post : List (ConfigM J)) (e : Str)
    (hpre : ∀ p ∈ pre, ∃ c, p.start = .ok c) (hc : cfg.start = .error e) :
    start_all (pre ++ cfg :: post)
      = (pre.map (·.name) ++ [cfg.name], started_clients pre, some e) ∧
    manager_scope (pre ++ cfg :: post)
      = (pre.map (·.name) ++ [cfg.name], [], some e) := by
  have hs : start_all (pre ++ cfg :: post)
      = (pre.map (·.name) ++ [cfg.name], started_clients pre, some e) := by
    simpa [start_all] using start_all_go_err pre cfg post e [] [] hpre hc
  refine ⟨hs, ?_⟩
  simp [manager_scope, hs]

/-- Witness for C6 at the three configs `a` (starts), `b` (fails), `c`. -/
theorem C6_witness :
    start_all configsFail
      = ([strL "a", strL "b"],
         started_clients [⟨strL "a", .ok clientStopOk⟩], some (strL "spawnfail")) ∧
    manager_scope configsFail
      = ([strL "a", strL "b"], [], some (strL "spawnfail")) := by
  have h := C6_start_all_abort [⟨strL "a", .ok clientStopOk⟩]
    ⟨strL "b", .error (strL "spawnfail")⟩ [⟨strL "c", .ok clientStopOk⟩]
    (strL "spawnfail")
    (by
      intro p hp
      simp only [List.mem_singleton] at hp
      subst hp
      exact ⟨clientStopOk, rfl⟩)
    rfl
  simpa using h

/-- Counterexample to C6 as stated: when config `b` of `[a, b, c]` fails to
start, config `c` is never attempted, and the already-started session `a`
is never stopped (the stop log of the scoped run is empty). -/
theorem C6_counterexample :
    manager_scope configsFail
      = ([strL "a", strL "b"], [], some (strL "spawnfail")) ∧
    strL "c" ∉ (manager_scope configsFail).1 ∧
    (manager_scope configsFail).2.1 = [] := by decide

/-! ## C7: history rollback on a failed turn -/

/-- C7 (amended): when the turn's initial LLM call raises — before any
tool-round messages were appended — the just-appended user message is
removed and the history equals its pre-turn value.  (After a tool round the
handler pops the trailing tool-result message instead, see the
counterexample.) -/
theorem C7_rollback_initial_failure {J : Type} (callT : Str → J → Except Str Str)
    (messages : List (Message J)) (user_input : Str) :
    chat_turn callT [] messages user_input = (messages, none) := by
  show (rollback (messages ++ [⟨strL "user", .text user_input⟩]), none)
    = (messages, none)
  unfold rollback
  rw [List.getLast?_concat, List.dropLast_concat]
  simp

/-- Counterexample to C7 as stated: after one tool round, a failing LLM
call aborts the turn, but the rollback pops only the trailing tool-result
message; the user message and the assistant tool-use message remain, so the
history does not equal its pre-turn value `[]`. -/
theorem C7_counterexample :
    (chat_turn callTok [respToolUse] [] (strL "hi")).2 = none ∧
    (chat_turn callTok [respToolUse] [] (strL "hi")).1
      = [⟨strL "user", .text (strL "hi")⟩,
         ⟨strL "assistant", .blocks respToolUse.content⟩] ∧
    (chat_turn callTok [respToolUse] [] (strL "hi")).1 ≠ [] := by decide

/-! ## C10: `tool_use` stop reason without tool-use blocks -/

/-- C10: when a response's stop reason is `tool_use` but its content holds
no tool-use block, `process_tool_calls` leaves the history untouched and
returns the newline-joined texts of that same response's text blocks — the
empty string when there are none. -/
theorem C10_empty_tool_use {J : Type} (callT : Str → J → Except Str Str)
    (script : List (Response J)) (response : Response J)
    (messages : List (Message J))
    (hstop : response.stop_reason = some (strL "tool_use"))
    (hempty : tool_uses_of response.content = []) :
    process_tool_calls callT script response messages
      = (messages, some (joinNL (text_blocks_text response.content))) ∧
    (text_blocks_text response.content = [] →
      process_tool_calls callT script response messages = (messages, some [])) := by
  have h : process_tool_calls callT script response messages
      = (messages, some (joinNL (text_blocks_text response.content))) := by
    unfold process_tool_calls
    rw [if_pos (by rw [hstop]), hempty]
  refine ⟨h, fun ht => ?_⟩
  rw [h, ht]
  rfl

/-- Witness for C10 at a `tool_use` response with empty content. -/
theorem C10_witness :
    process_tool_calls callTok [] respEmptyToolUse [] = ([], some []) :=
  (C10_empty_tool_use callTok [] respEmptyToolUse [] rfl rfl).2 rfl

end MCP
